import Mathlib

/-!
Verification of the pre-trade safety gate of the tiger-brokers-cash-mcp
repository: the safety rule engine (`safety/checks.py`), the daily state
tracker (`safety/state.py`) and the trade plan store
(`safety/trade_plan_store.py`).

Modelling conventions, used throughout:

* Python `float` values (prices, balances, P&L, timestamps) are embedded as
  exact rationals (`Rat`); every claim under verification concerns the
  comparison and control-flow logic, not binary floating-point rounding.
* Python `int` is embedded as `Int` (unbounded, possibly negative), matching
  the absence of any range validation in the dataclasses.
* Functions that mutate a Python list argument by appending are embedded as
  functions returning the list of appended elements; the caller concatenates.
* Calls reading the wall clock (`date.today()`, `time.time()`,
  `datetime.now()`) are embedded by passing the current day / current time
  explicitly as an argument.
* File-system effects are embedded by explicit state passing (a map from
  file name to content); where a claim concerns a raised exception the
  fallible step is an explicit `Except`/flag value.
* `hashlib.sha256(raw).hexdigest()` in `make_fingerprint` is modelled as the
  identity on its pre-image `raw` (an injective stand-in); no claim verified
  here depends on any property of the hash function itself.
-/

namespace TigerMcp

/-- From `config.py`: the `Settings` dataclass. Only the three safety-limit
fields read by the rule engine are embedded; the credential, path and
transport fields are not consulted by any claim under verification. -/
structure Settings where
  max_order_value : Rat := 0
  daily_loss_limit : Rat := 0
  max_position_pct : Rat := 0
deriving DecidableEq, Repr

/-- From `safety/checks.py`: `SafetyResult`. -/
structure SafetyResult where
  passed : Bool
  errors : List String := []
  warnings : List String := []
deriving DecidableEq, Repr

/-- From `safety/checks.py`: `OrderParams`. -/
structure OrderParams where
  symbol : String
  action : String
  quantity : Int
  order_type : String
  limit_price : Option Rat := none
  stop_price : Option Rat := none
  last_price : Option Rat := none
deriving DecidableEq, Repr

/-- From `safety/checks.py`: `AccountInfo`. -/
structure AccountInfo where
  cash_balance : Rat
  net_liquidation : Rat
deriving DecidableEq, Repr

/-- From `safety/checks.py`: `PositionInfo`. -/
structure PositionInfo where
  symbol : String
  quantity : Int
deriving DecidableEq, Repr

/-- From `safety/state.py`: one entry of `DailyState.recent_orders`
(a dict with a `fingerprint` and a `timestamp` key). -/
structure OrderEntry where
  fingerprint : String
  timestamp : Rat
deriving DecidableEq, Repr

/-- From `safety/state.py`: the in-memory attributes of `DailyState`
(`date`, `realized_pnl`, `recent_orders`). The `state_dir` path attribute
only names on-disk files and is represented by the explicit file-map
arguments of the persistence operations below. -/
structure DailyState where
  date : String
  realized_pnl : Rat := 0
  recent_orders : List OrderEntry := []
deriving DecidableEq, Repr

namespace DailyState

/-- From `DailyState._ensure_today`: reset state if the calendar date has
changed since last access. `today` is the value of `date.today().isoformat()`
computed fresh at call time. -/
def ensure_today (s : DailyState) (today : String) : DailyState :=
  if s.date ≠ today then { date := today, realized_pnl := 0, recent_orders := [] }
  else s

/-- The on-disk state files: `state_dir/YYYY-MM-DD.json`, keyed by the date
string. A file's payload is exactly the serialized triple
(date, realized_pnl, recent_orders), i.e. a `DailyState` value. -/
def StateFiles : Type := String → Option DailyState

/-- From `DailyState._save`: persist current state to
`state_dir/YYYY-MM-DD.json` (the file named by `self.date`). -/
def save (s : DailyState) (fs : StateFiles) : StateFiles :=
  fun d => if d = s.date then some s else fs d

/-- From `DailyState.record_pnl`: add `amount` to the daily realized P&L and
persist. -/
def record_pnl (s : DailyState) (fs : StateFiles) (today : String)
    (amount : Rat) : DailyState × StateFiles :=
  let s1 := ensure_today s today
  let s2 := { s1 with realized_pnl := s1.realized_pnl + amount }
  (s2, save s2 fs)

/-- From `DailyState.record_order`: append an entry with the current
timestamp (`now = time.time()`) and persist. -/
def record_order (s : DailyState) (fs : StateFiles) (today : String)
    (now : Rat) (fingerprint : String) : DailyState × StateFiles :=
  let s1 := ensure_today s today
  let s2 := { s1 with recent_orders := s1.recent_orders ++ [⟨fingerprint, now⟩] }
  (s2, save s2 fs)

/-- From `DailyState.has_recent_order`: prune entries strictly older than
`now - window_seconds`, then report whether any remaining entry carries the
given fingerprint. Returns the answer together with the mutated state (the
pruning and any day rollover are in-memory side effects; nothing is written
to disk by this method). -/
def has_recent_order (s : DailyState) (today : String) (now : Rat)
    (fingerprint : String) (window_seconds : Rat := 60) : Bool × DailyState :=
  let s1 := ensure_today s today
  let cutoff := now - window_seconds
  let s2 := { s1 with recent_orders :=
    s1.recent_orders.filter (fun e => cutoff ≤ e.timestamp) }
  (s2.recent_orders.any (fun e => e.fingerprint == fingerprint), s2)

/-- From `DailyState.get_daily_pnl`: date check first, then return the
accumulated value (no disk write). -/
def get_daily_pnl (s : DailyState) (today : String) : Rat × DailyState :=
  let s1 := ensure_today s today
  (s1.realized_pnl, s1)

/-- Python `str(limit_price)` as used in the fingerprint pre-image:
`None` renders as the word None, a number as its decimal text (the exact
digit rendering of a float is not load-bearing for any claim). -/
def fmtOptPrice : Option Rat → String
  | none => "None"
  | some p => toString p

/-- From `DailyState.make_fingerprint`: the delimited concatenation
`symbol|action|quantity|order_type|limit_price`. The SHA-256 hex digest
applied to it in the source is modelled as the identity (see module
conventions). -/
def make_fingerprint (symbol action : String) (quantity : Int)
    (order_type : String) (limit_price : Option Rat) : String :=
  symbol ++ "|" ++ action ++ "|" ++ toString quantity ++ "|" ++ order_type
    ++ "|" ++ fmtOptPrice limit_price

end DailyState

/-- From `safety/checks.py`: `_BUYING_POWER_BUFFER = 1.01`. -/
def BUYING_POWER_BUFFER : Rat := 101 / 100

/-- Python money rendering used in check messages (the comma-grouped
two-decimal form). The digit rendering is not load-bearing for any claim;
what matters is that the message is built from the stated quantities. -/
def fmtMoney (x : Rat) : String := toString x

/-- From `_estimate_price`: prefer `limit_price` when set (not None); fall
back to `last_price`; `none` when neither is available. -/
def estimate_price (order : OrderParams) : Option Rat :=
  match order.limit_price with
  | some p => some p
  | none => order.last_price

/-- The first message of `_check_short_selling`. -/
def shortNoPositionMsg (symbol : String) : String :=
  "Short selling blocked: no position in " ++ symbol

/-- The second message of `_check_short_selling`. -/
def shortExceedsMsg (quantity held : Int) (symbol : String) : String :=
  "Short selling blocked: order quantity " ++ toString quantity
    ++ " exceeds held shares " ++ toString held ++ " for " ++ symbol

/-- From `_check_short_selling`: the held quantity for the order's symbol,
taken from the first matching position (the Python loop breaks on the first
match), `0` when no position matches. -/
def heldQty (symbol : String) (positions : List PositionInfo) : Int :=
  match positions.find? (fun pos => pos.symbol == symbol) with
  | some pos => pos.quantity
  | none => 0

/-- From `_check_short_selling` (check 1): block short selling. Returns the
list of error strings appended. -/
def check_short_selling (order : OrderParams)
    (positions : List PositionInfo) : List String :=
  if order.action ≠ "SELL" then []
  else
    let held := heldQty order.symbol positions
    if held ≤ 0 then [shortNoPositionMsg order.symbol]
    else if order.quantity > held then
      [shortExceedsMsg order.quantity held order.symbol]
    else []

/-- The message of `_check_buying_power`. -/
def insufficientMsg (cost cash : Rat) : String :=
  "Insufficient buying power: estimated cost $" ++ fmtMoney cost
    ++ " (incl. 1% buffer) exceeds cash balance $" ++ fmtMoney cash

/-- From `_check_buying_power` (check 2): verify cash for a BUY order;
estimated cost includes the 1% buffer. -/
def check_buying_power (order : OrderParams)
    (account : AccountInfo) : List String :=
  if order.action ≠ "BUY" then []
  else
    match estimate_price order with
    | none => []
    | some price =>
      let cost := order.quantity * price * BUYING_POWER_BUFFER
      if cost > account.cash_balance then
        [insufficientMsg cost account.cash_balance]
      else []

/-- The message of `_check_max_order_value`. -/
def maxOrderMsg (order_value limit : Rat) : String :=
  "Max order value exceeded: $" ++ fmtMoney order_value
    ++ " > limit $" ++ fmtMoney limit

/-- From `_check_max_order_value` (check 3): order value must not exceed the
configured maximum; a non-positive limit disables the check. -/
def check_max_order_value (order : OrderParams)
    (config : Settings) : List String :=
  if config.max_order_value ≤ 0 then []
  else
    match estimate_price order with
    | none => []
    | some price =>
      let order_value := order.quantity * price
      if order_value > config.max_order_value then
        [maxOrderMsg order_value config.max_order_value]
      else []

/-- The message of `_check_position_concentration`. -/
def concentrationMsg (order_value pct limit : Rat) : String :=
  "Position concentration warning: order value $" ++ fmtMoney order_value
    ++ " exceeds " ++ fmtMoney pct ++ "% of net liquidation ($"
    ++ fmtMoney limit ++ ")"

/-- From `_check_position_concentration` (check 4): warning (not error) when
the order value exceeds `max_position_pct * net_liquidation`. -/
def check_position_concentration (order : OrderParams)
    (account : AccountInfo) (config : Settings) : List String :=
  if config.max_position_pct ≤ 0 then []
  else
    match estimate_price order with
    | none => []
    | some price =>
      let order_value := order.quantity * price
      let limit := config.max_position_pct * account.net_liquidation
      if order_value > limit then
        [concentrationMsg order_value (config.max_position_pct * 100) limit]
      else []

/-- The message of `_check_daily_loss_limit`. -/
def dailyLossMsg (daily_pnl limit : Rat) : String :=
  "Daily loss limit exceeded: realized P&L $" ++ fmtMoney daily_pnl
    ++ " breaches -$" ++ fmtMoney limit ++ " limit"

/-- From `_check_daily_loss_limit` (check 5): block trading when
`get_daily_pnl() < -daily_loss_limit` (strict). Note the source only calls
`state.get_daily_pnl()` (which may roll the day over in memory) when the
limit is positive; the possibly-updated state is returned alongside. -/
def check_daily_loss_limit (config : Settings) (state : DailyState)
    (today : String) : List String × DailyState :=
  if config.daily_loss_limit ≤ 0 then ([], state)
  else
    let r := DailyState.get_daily_pnl state today
    (if r.1 < -config.daily_loss_limit then
      [dailyLossMsg r.1 config.daily_loss_limit]
    else [], r.2)

/-- The message of `_check_duplicate_order`. -/
def dupMsg (action : String) (quantity : Int) (symbol : String) : String :=
  "Duplicate order detected: a similar " ++ action ++ " order for "
    ++ toString quantity ++ " " ++ symbol ++ " was submitted recently"

/-- From `_check_duplicate_order` (check 6): warn when an identical order
fingerprint was submitted within the store's default window. -/
def check_duplicate_order (order : OrderParams) (state : DailyState)
    (today : String) (now : Rat) : List String × DailyState :=
  let fingerprint := DailyState.make_fingerprint order.symbol order.action
    order.quantity order.order_type order.limit_price
  let r := DailyState.has_recent_order state today now fingerprint 60
  (if r.1 then [dupMsg order.action order.quantity order.symbol] else [], r.2)

/-- From `run_safety_checks`: run all six checks (never short-circuiting)
and combine. The state argument is threaded through the two checks that
query it (checks 5 and 6); the result carries the final in-memory state. -/
def run_safety_checks (order : OrderParams) (account : AccountInfo)
    (positions : List PositionInfo) (config : Settings) (state : DailyState)
    (today : String) (now : Rat) : SafetyResult × DailyState :=
  let errs1 := check_short_selling order positions
  let errs2 := check_buying_power order account
  let errs3 := check_max_order_value order config
  let warns4 := check_position_concentration order account config
  let r5 := check_daily_loss_limit config state today
  let r6 := check_duplicate_order order r5.2 today now
  let errors := errs1 ++ errs2 ++ errs3 ++ r5.1
  let warnings := warns4 ++ r6.1
  ({ passed := errors.isEmpty, errors := errors, warnings := warnings }, r6.2)

/-- From `DailyState.__init__` together with `DailyState._load`: the
constructor zeroes the state for `today`, then, if the file
`state_dir/{today}.json` exists, adopts its parsed contents verbatim.
`file` is the content of that file: `none` when absent, otherwise the
result of parsing it (`Except.error` models an `orjson.JSONDecodeError` or
a `KeyError` on a missing required key). The source wraps the read in no
`try`, so a parse failure propagates out of the constructor; hence the
result type is `Except`. -/
def DailyState.load (today : String)
    (file : Option (Except Unit DailyState)) : Except Unit DailyState :=
  match file with
  | none => Except.ok { date := today, realized_pnl := 0, recent_orders := [] }
  | some (Except.ok data) => Except.ok data
  | some (Except.error e) => Except.error e

/-- From `trade_plan_store.py`: `Modification`. The heterogeneous
`changes` dict is embedded with its values as strings; no claim inspects
the values. -/
structure Modification where
  timestamp : String
  changes : List (String × String)
  reason : String
deriving DecidableEq, Repr

/-- From `trade_plan_store.py`: `TradePlan`. -/
structure TradePlan where
  order_id : Int
  symbol : String
  action : String
  quantity : Int
  order_type : String
  limit_price : Option Rat
  stop_price : Option Rat
  reason : String
  status : String
  created_at : String
  modified_at : Option String
  archived_at : Option String
  archive_reason : Option String
  modifications : List Modification := []
deriving DecidableEq, Repr

/-- A Python dict keyed by strings, as an insertion-ordered association
list with (by construction) no duplicate keys. -/
def PlanDict : Type := List (String × TradePlan)

/-- Python `d.get(k)` / `d[k]` lookup. -/
def dget (d : PlanDict) (k : String) : Option TradePlan :=
  match d with
  | [] => none
  | kv :: rest => if kv.1 == k then some kv.2 else dget rest k

/-- Python `d[k] = v`: replace the value at an existing key in place,
otherwise append the new binding at the end (insertion order). -/
def dinsert (d : PlanDict) (k : String) (v : TradePlan) : PlanDict :=
  match d with
  | [] => [(k, v)]
  | kv :: rest => if kv.1 == k then (k, v) :: rest else kv :: dinsert rest k v

/-- Python `d.pop(k, None)`, key-removal part: drop the binding at `k`. -/
def dremove (d : PlanDict) (k : String) : PlanDict :=
  match d with
  | [] => []
  | kv :: rest => if kv.1 == k then rest else kv :: dremove rest k

/-- From `trade_plan_store.py`: the in-memory maps of `TradePlanStore`
(`_plans` = active, `_archived`). The `state_dir` path and the two file
paths only matter to persistence, which is modelled separately by
`save_file` below. -/
structure TradePlanStore where
  plans : PlanDict := []
  archived : PlanDict := []

namespace TradePlanStore

/-- The store a fresh process starts from (`__init__` before `_load`, or
`_load` over an empty directory). -/
def empty : TradePlanStore := { plans := [], archived := [] }

/-- From `TradePlanStore.create`: build a new active plan with the current
timestamp (`now = datetime.now().isoformat()`), insert it into the active
set keyed by `str(order_id)`, and return it. -/
def create (s : TradePlanStore) (order_id : Int) (symbol action : String)
    (quantity : Int) (order_type reason : String)
    (limit_price stop_price : Option Rat) (now : String) :
    TradePlan × TradePlanStore :=
  let plan : TradePlan :=
    { order_id := order_id
      symbol := symbol
      action := action
      quantity := quantity
      order_type := order_type
      limit_price := limit_price
      stop_price := stop_price
      reason := reason
      status := "active"
      created_at := now
      modified_at := none
      archived_at := none
      archive_reason := none
      modifications := [] }
  (plan, { s with plans := dinsert s.plans (toString order_id) plan })

/-- From `TradePlanStore.record_modification`: no-op when `order_id` is not
in the active set; otherwise append a `Modification` and stamp
`modified_at`. -/
def record_modification (s : TradePlanStore) (order_id : Int)
    (changes : List (String × String)) (reason now : String) :
    TradePlanStore :=
  match dget s.plans (toString order_id) with
  | none => s
  | some plan =>
    let mod : Modification := { timestamp := now, changes := changes, reason := reason }
    let plan' := { plan with
      modifications := plan.modifications ++ [mod]
      modified_at := some mod.timestamp }
    { s with plans := dinsert s.plans (toString order_id) plan' }

/-- From `TradePlanStore.archive`: pop from active (no-op when absent), set
status/archived_at/archive_reason, insert into the archived set. -/
def archive (s : TradePlanStore) (order_id : Int)
    (archive_reason now : String) : TradePlanStore :=
  match dget s.plans (toString order_id) with
  | none => s
  | some plan =>
    let plan' := { plan with
      status := "archived"
      archived_at := some now
      archive_reason := some archive_reason }
    { plans := dremove s.plans (toString order_id)
      archived := dinsert s.archived (toString order_id) plan' }

/-- From `TradePlanStore.archive_all`: archive every active plan with the
same reason in one pass (the loop pops each key and inserts the updated
plan into the archived set). -/
def archive_all (s : TradePlanStore) (reason now : String) : TradePlanStore :=
  { plans := []
    archived := s.plans.foldl (fun acc kv =>
      dinsert acc kv.1 { kv.2 with
        status := "archived"
        archived_at := some now
        archive_reason := some reason }) s.archived }

/-- From `TradePlanStore.get_plan`: active set first, then archive. -/
def get_plan (s : TradePlanStore) (order_id : Int) : Option TradePlan :=
  match dget s.plans (toString order_id) with
  | some plan => some plan
  | none => dget s.archived (toString order_id)

/-- From `TradePlanStore._load` (and `__init__`): start from empty maps;
for each of the two files, when it exists adopt its parsed mapping, and
when parsing raises (`orjson.JSONDecodeError`, `KeyError`, `TypeError`)
log and keep the empty map for that file. Total: a parse failure never
propagates. -/
def load (activeFile archiveFile : Option (Except Unit PlanDict)) :
    TradePlanStore :=
  { plans :=
      match activeFile with
      | none => []
      | some (Except.ok d) => d
      | some (Except.error _) => []
    archived :=
      match archiveFile with
      | none => []
      | some (Except.ok d) => d
      | some (Except.error _) => [] }

end TradePlanStore

/-- One mutating call against a `TradePlanStore`, with the wall-clock
timestamp observed by that call. -/
inductive StoreOp
  | create (order_id : Int) (symbol action : String) (quantity : Int)
      (order_type reason : String) (limit_price stop_price : Option Rat)
      (now : String)
  | record_modification (order_id : Int) (changes : List (String × String))
      (reason now : String)
  | archive (order_id : Int) (archive_reason now : String)
  | archive_all (reason now : String)
deriving DecidableEq, Repr

/-- Apply one call to the store. -/
def stepStore (s : TradePlanStore) : StoreOp → TradePlanStore
  | .create order_id symbol action quantity order_type reason lp sp now =>
    (s.create order_id symbol action quantity order_type reason lp sp now).2
  | .record_modification order_id changes reason now =>
    s.record_modification order_id changes reason now
  | .archive order_id archive_reason now =>
    s.archive order_id archive_reason now
  | .archive_all reason now =>
    s.archive_all reason now

/-- Run a sequence of calls from the empty store. -/
def runStore (ops : List StoreOp) : TradePlanStore :=
  ops.foldl stepStore TradePlanStore.empty

/-- A `create` call whose order id is not already present in the archived
set at call time (broker-assigned order ids are fresh); every other call
is unrestricted. -/
def createFresh (s : TradePlanStore) : StoreOp → Prop
  | .create order_id _ _ _ _ _ _ _ _ => dget s.archived (toString order_id) = none
  | _ => True

/-- Store states reachable from the empty store by calls whose `create`s
use order ids never previously archived. -/
inductive ReachableFresh : TradePlanStore → Prop
  | empty : ReachableFresh TradePlanStore.empty
  | step (s : TradePlanStore) (op : StoreOp) : ReachableFresh s →
      createFresh s op → ReachableFresh (stepStore s op)

/-- The keys of a dict. -/
def dkeys (d : PlanDict) : List String := d.map Prod.fst

/-- The dict has no duplicate keys (true of every Python dict). -/
def NodupKeys (d : PlanDict) : Prop := (dkeys d).Nodup

/-- No order_id key carries a plan in both the active and the archived
set. -/
def KeysDisjoint (s : TradePlanStore) : Prop :=
  ∀ k, dget s.plans k = none ∨ dget s.archived k = none

/-- Where `TradePlanStore._save_file`'s write sequence
(`fd.write(data)`; `fd.close()`; `os.replace(fd.name, filepath)`) fails,
if anywhere, and — for the failing cases — whether the best-effort cleanup
`os.unlink(fd.name)` itself succeeds (the source swallows an `OSError`
from it with `pass`). `failWrite` carries the bytes that made it into the
temp file before the write raised. -/
inductive SaveOutcome
  | ok
  | failWrite (written : String) (unlinkFails : Bool)
  | failClose (unlinkFails : Bool)
  | failReplace (unlinkFails : Bool)
deriving DecidableEq, Repr

/-- The observable file-system cell `_save_file` acts on: the content of
the target path and of the temporary file (both in `state_dir`); `none`
means the file does not exist. -/
structure SaveFS where
  target : Option String
  temp : Option String
deriving DecidableEq, Repr

/-- From `TradePlanStore._save_file`: write the full serialized mapping
`data` to a fresh temp file in the state directory, close it, and
`os.replace` it over `filepath` (whose prior content is `prev`). On any
failure the temp file is unlinked best-effort and the exception re-raised.
Returns (exception propagated?, resulting file system). -/
def save_file (prev : Option String) (data : String) (o : SaveOutcome) :
    Bool × SaveFS :=
  match o with
  | .ok => (false, { target := some data, temp := none })
  | .failWrite written u =>
    (true, { target := prev, temp := if u then some written else none })
  | .failClose u =>
    (true, { target := prev, temp := if u then some data else none })
  | .failReplace u =>
    (true, { target := prev, temp := if u then some data else none })

/-- Whether the best-effort cleanup `os.unlink` succeeds in the given
outcome (vacuously true on the success path, where no cleanup runs). -/
def unlinkOk : SaveOutcome → Bool
  | .ok => true
  | .failWrite _ u => !u
  | .failClose u => !u
  | .failReplace u => !u

/-- C1: for a SELL order, `_check_short_selling` takes the held quantity for
`order.symbol` from the positions list (0 when no position matches): held ≤ 0
appends the error "Short selling blocked: no position in SYMBOL" (which
contains "no position in SYMBOL"); held in (0, quantity) appends the
quantity-exceeds-held error; quantity exactly equal to held (a positive
order quantity closing a full position) appends nothing. A non-SELL order
appends nothing. -/
theorem c1_check_short_selling (o : OrderParams) (ps : List PositionInfo) :
    (o.action ≠ "SELL" → check_short_selling o ps = [])
    ∧ (o.action = "SELL" → heldQty o.symbol ps ≤ 0 →
        check_short_selling o ps = [shortNoPositionMsg o.symbol])
    ∧ (o.action = "SELL" → 0 < heldQty o.symbol ps →
        heldQty o.symbol ps < o.quantity →
        check_short_selling o ps =
          [shortExceedsMsg o.quantity (heldQty o.symbol ps) o.symbol])
    ∧ (o.action = "SELL" → 0 < o.quantity → o.quantity = heldQty o.symbol ps →
        check_short_selling o ps = []) := by
  refine ⟨fun h => ?_, fun h1 h2 => ?_, fun h1 h2 h3 => ?_, fun h1 h2 h3 => ?_⟩
  · simp [check_short_selling, h]
  · simp [check_short_selling, h1, h2]
  · have hh : ¬ heldQty o.symbol ps ≤ 0 := by omega
    simp [check_short_selling, h1, hh, h3]
  · have hh : ¬ heldQty o.symbol ps ≤ 0 := by omega
    have hq : ¬ o.quantity > heldQty o.symbol ps := by omega
    simp [check_short_selling, h1, hh, hq]

/-- Witness for C1 at concrete inputs: a SELL of 5 AAPL against a held
position of 5 produces no error; a SELL with no position produces the
no-position error; a SELL of 6 against 5 held produces the exceeds error;
a BUY produces nothing. -/
theorem c1_witness :
    check_short_selling ⟨"AAPL", "SELL", 5, "MKT", none, none, none⟩
      [⟨"AAPL", 5⟩] = []
    ∧ check_short_selling ⟨"AAPL", "SELL", 1, "MKT", none, none, none⟩
      [] = [shortNoPositionMsg "AAPL"]
    ∧ check_short_selling ⟨"AAPL", "SELL", 6, "MKT", none, none, none⟩
      [⟨"AAPL", 5⟩] = [shortExceedsMsg 6 5 "AAPL"]
    ∧ check_short_selling ⟨"AAPL", "BUY", 5, "MKT", none, none, none⟩
      [] = [] := by
  refine ⟨?_, ?_, ?_, ?_⟩
  · exact (c1_check_short_selling _ _).2.2.2 (by decide) (by decide) (by decide)
  · exact (c1_check_short_selling _ _).2.1 (by decide) (by decide)
  · exact (c1_check_short_selling _ _).2.2.1 (by decide) (by decide) (by decide)
  · exact (c1_check_short_selling _ _).1 (by decide)

/-- C2: for every input, the `SafetyResult` built by `run_safety_checks`
satisfies `passed == (errors is empty)`, whatever the warnings are. -/
theorem c2_passed_iff_no_errors (order : OrderParams) (account : AccountInfo)
    (positions : List PositionInfo) (config : Settings) (state : DailyState)
    (today : String) (now : Rat) :
    ((run_safety_checks order account positions config state today now).1.passed
      = (run_safety_checks order account positions config state today
          now).1.errors.isEmpty)
    ∧ ((run_safety_checks order account positions config state today
          now).1.passed = true
        ↔ (run_safety_checks order account positions config state today
            now).1.errors = []) := by
  refine ⟨rfl, ?_⟩
  rw [show (run_safety_checks order account positions config state today
      now).1.passed = (run_safety_checks order account positions config state
      today now).1.errors.isEmpty from rfl]
  exact List.isEmpty_iff

/-- Witness for C2 at a concrete input (an order that fails the
buying-power check): `passed` is `false` and the iff holds. -/
theorem c2_witness :
    ((run_safety_checks ⟨"AAPL", "BUY", 100, "LMT", some 150, none, none⟩
        ⟨10000, 200000⟩ [] ⟨0, 0, 0⟩ ⟨"2026-10-12", 0, []⟩ "2026-10-12"
        0).1.passed
      = (run_safety_checks ⟨"AAPL", "BUY", 100, "LMT", some 150, none, none⟩
        ⟨10000, 200000⟩ [] ⟨0, 0, 0⟩ ⟨"2026-10-12", 0, []⟩ "2026-10-12"
        0).1.errors.isEmpty)
    ∧ ((run_safety_checks ⟨"AAPL", "BUY", 100, "LMT", some 150, none, none⟩
        ⟨10000, 200000⟩ [] ⟨0, 0, 0⟩ ⟨"2026-10-12", 0, []⟩ "2026-10-12"
        0).1.passed = true
      ↔ (run_safety_checks ⟨"AAPL", "BUY", 100, "LMT", some 150, none, none⟩
        ⟨10000, 200000⟩ [] ⟨0, 0, 0⟩ ⟨"2026-10-12", 0, []⟩ "2026-10-12"
        0).1.errors = []) :=
  c2_passed_iff_no_errors _ _ _ _ _ _ _

/-- C3: `_check_buying_power` touches only BUY orders with an available
price estimate; there the estimated cost is quantity × price × 1.01 and the
error is appended exactly when the cost strictly exceeds the cash
balance. -/
theorem c3_check_buying_power (o : OrderParams) (a : AccountInfo) :
    (o.action ≠ "BUY" → check_buying_power o a = [])
    ∧ (estimate_price o = none → check_buying_power o a = [])
    ∧ (o.action = "BUY" → ∀ p, estimate_price o = some p →
        (check_buying_power o a =
          (if o.quantity * p * BUYING_POWER_BUFFER > a.cash_balance then
            [insufficientMsg (o.quantity * p * BUYING_POWER_BUFFER)
              a.cash_balance]
          else []))
        ∧ (check_buying_power o a ≠ []
          ↔ o.quantity * p * BUYING_POWER_BUFFER > a.cash_balance)) := by
  refine ⟨fun h => ?_, fun h => ?_, fun h1 p hp => ⟨?_, ?_⟩⟩
  · simp [check_buying_power, h]
  · simp [check_buying_power, h]
  · simp [check_buying_power, h1, hp]
  · simp only [check_buying_power, h1, hp]
    split
    · simp_all
    · simp_all

/-- Witness for C3 at concrete inputs: a BUY of 100 at limit 150 against
cash 10000 fires (cost 15150 > 10000); against cash 15150 it does not;
a SELL never fires; no price estimate never fires. -/
theorem c3_witness :
    (check_buying_power ⟨"AAPL", "BUY", 100, "LMT", some 150, none, none⟩
        ⟨10000, 200000⟩ ≠ [])
    ∧ check_buying_power ⟨"AAPL", "BUY", 100, "LMT", some 150, none, none⟩
        ⟨15150, 200000⟩ = []
    ∧ check_buying_power ⟨"AAPL", "SELL", 100, "LMT", some 150, none, none⟩
        ⟨0, 0⟩ = []
    ∧ check_buying_power ⟨"AAPL", "BUY", 100, "MKT", none, none, none⟩
        ⟨0, 0⟩ = [] := by
  refine ⟨?_, ?_, ?_, ?_⟩
  · exact ((c3_check_buying_power _ _).2.2 (by decide) 150 (by decide)).2.mpr
      (by norm_num [BUYING_POWER_BUFFER])
  · rw [((c3_check_buying_power _ _).2.2 (by decide) 150 (by decide)).1]
    norm_num [BUYING_POWER_BUFFER]
  · exact (c3_check_buying_power _ _).1 (by decide)
  · exact (c3_check_buying_power _ _).2.1 (by decide)

/-- C4: `_check_daily_loss_limit` is disabled for a non-positive limit L;
for L > 0 it appends its error exactly when the daily P&L is strictly below
-L, so a P&L of exactly -L appends nothing. -/
theorem c4_check_daily_loss_limit (config : Settings) (s : DailyState)
    (today : String) :
    (config.daily_loss_limit ≤ 0 →
      (check_daily_loss_limit config s today).1 = [])
    ∧ (0 < config.daily_loss_limit →
        ((check_daily_loss_limit config s today).1 ≠ []
          ↔ (DailyState.get_daily_pnl s today).1 < -config.daily_loss_limit))
    ∧ (0 < config.daily_loss_limit →
        (DailyState.get_daily_pnl s today).1 = -config.daily_loss_limit →
        (check_daily_loss_limit config s today).1 = []) := by
  refine ⟨fun h => ?_, fun h => ?_, fun h he => ?_⟩
  · simp [check_daily_loss_limit, h]
  · have hh : ¬ config.daily_loss_limit ≤ 0 := not_le.mpr h
    simp only [check_daily_loss_limit, if_neg hh]
    split
    · simp_all
    · simp_all
  · have hh : ¬ config.daily_loss_limit ≤ 0 := not_le.mpr h
    have hlt : ¬ (DailyState.get_daily_pnl s today).1
        < -config.daily_loss_limit := by rw [he]; exact lt_irrefl _
    simp [check_daily_loss_limit, hh, hlt]

/-- Witness for C4 at concrete inputs: limit 0 is disabled; with limit 50,
P&L exactly -50 appends nothing while P&L -50.01 fires. -/
theorem c4_witness :
    (check_daily_loss_limit ⟨0, 0, 0⟩ ⟨"2026-10-12", -1000, []⟩
      "2026-10-12").1 = []
    ∧ ((check_daily_loss_limit ⟨0, 50, 0⟩ ⟨"2026-10-12", -5001/100, []⟩
      "2026-10-12").1 ≠ [])
    ∧ (check_daily_loss_limit ⟨0, 50, 0⟩ ⟨"2026-10-12", -50, []⟩
      "2026-10-12").1 = [] := by
  refine ⟨?_, ?_, ?_⟩
  · exact (c4_check_daily_loss_limit _ _ _).1 (by norm_num)
  · exact ((c4_check_daily_loss_limit _ _ _).2.1 (by norm_num)).mpr
      (by norm_num [DailyState.get_daily_pnl, DailyState.ensure_today])
  · exact (c4_check_daily_loss_limit _ _ _).2.2 (by norm_num)
      (by norm_num [DailyState.get_daily_pnl, DailyState.ensure_today])

/-- C5: the price estimate is `limit_price` whenever that field is present
(including a limit price of 0, which is used as-is), otherwise
`last_price`; and with both absent, the buying-power, max-order-value and
position-concentration checks all append nothing. -/
theorem c5_estimate_price (o : OrderParams) (a : AccountInfo)
    (config : Settings) :
    (∀ p, o.limit_price = some p → estimate_price o = some p)
    ∧ (o.limit_price = none → estimate_price o = o.last_price)
    ∧ (o.limit_price = some 0 → estimate_price o = some 0)
    ∧ (o.limit_price = none → o.last_price = none →
        check_buying_power o a = []
        ∧ check_max_order_value o config = []
        ∧ check_position_concentration o a config = []) := by
  refine ⟨fun p hp => ?_, fun h => ?_, fun h => ?_, fun h1 h2 => ?_⟩
  · simp [estimate_price, hp]
  · simp [estimate_price, h]
  · simp [estimate_price, h]
  · have he : estimate_price o = none := by simp [estimate_price, h1, h2]
    refine ⟨?_, ?_, ?_⟩
    · simp only [check_buying_power, he]
      split <;> simp
    · simp only [check_max_order_value, he]
      split <;> simp
    · simp only [check_position_concentration, he]
      split <;> simp

/-- Witness for C5 at concrete inputs: a limit price of 0 is used as the
estimate; with both prices absent all three price-dependent checks append
nothing even with tight limits. -/
theorem c5_witness :
    estimate_price ⟨"AAPL", "BUY", 100, "LMT", some 0, none, some 42⟩ = some 0
    ∧ (check_buying_power ⟨"AAPL", "BUY", 100, "MKT", none, none, none⟩
        ⟨0, 0⟩ = []
      ∧ check_max_order_value ⟨"AAPL", "BUY", 100, "MKT", none, none, none⟩
        ⟨1, 1, 1⟩ = []
      ∧ check_position_concentration
        ⟨"AAPL", "BUY", 100, "MKT", none, none, none⟩ ⟨0, 0⟩ ⟨1, 1, 1⟩ = []) :=
  ⟨(c5_estimate_price ⟨"AAPL", "BUY", 100, "LMT", some 0, none, some 42⟩
      ⟨0, 0⟩ ⟨0, 0, 0⟩).2.2.1 rfl,
    (c5_estimate_price _ _ _).2.2.2 rfl rfl⟩

/-- C7, counterexample to the claim as stated: when the write into the
temporary file fails and the best-effort `os.unlink` of the temp file
itself fails (an `OSError` the source swallows with `pass`), the exception
is re-raised and the target is untouched, but the temporary file is NOT
removed — it still holds the partially written bytes. -/
theorem c7_counterexample :
    ((save_file (some "old") "new" (SaveOutcome.failWrite "pa" true)).2.temp
        ≠ none)
    ∧ (save_file (some "old") "new" (SaveOutcome.failWrite "pa" true)).1
        = true
    ∧ (save_file (some "old") "new"
        (SaveOutcome.failWrite "pa" true)).2.target = some "old" := by
  refine ⟨?_, rfl, rfl⟩
  intro h
  simp [save_file] at h

/-- C7 (amended): `_save_file` writes the full serialization to a temp file
and atomically renames it over the target. On success the target holds
exactly the new serialization and the temp file is gone; on any failure the
exception is re-raised and the target is unchanged; the target never holds
anything but the old or the new complete content; and the temp file is
removed whenever the best-effort cleanup unlink succeeds (removal is
best-effort: a failing `os.unlink` is swallowed). -/
theorem c7_save_file_atomic (prev : Option String) (data : String)
    (o : SaveOutcome) :
    ((save_file prev data o).1 = false →
      (save_file prev data o).2.target = some data
      ∧ (save_file prev data o).2.temp = none)
    ∧ ((save_file prev data o).1 = true →
      (save_file prev data o).2.target = prev)
    ∧ ((save_file prev data o).2.target = some data
      ∨ (save_file prev data o).2.target = prev)
    ∧ ((save_file prev data o).1 = false ↔ o = SaveOutcome.ok)
    ∧ ((save_file prev data o).1 = true → unlinkOk o = true →
      (save_file prev data o).2.temp = none) := by
  cases o <;> simp [save_file, unlinkOk]

/-- Witness for C7 (amended) at two concrete inputs, via the theorem: the
success outcome and a write-failure outcome with a succeeding cleanup. -/
theorem c7_witness :
    (((save_file (some "old") "new" SaveOutcome.ok).1 = false →
      (save_file (some "old") "new" SaveOutcome.ok).2.target = some "new"
      ∧ (save_file (some "old") "new" SaveOutcome.ok).2.temp = none)
    ∧ ((save_file (some "old") "new" SaveOutcome.ok).1 = true →
      (save_file (some "old") "new" SaveOutcome.ok).2.target = some "old")
    ∧ ((save_file (some "old") "new" SaveOutcome.ok).2.target = some "new"
      ∨ (save_file (some "old") "new" SaveOutcome.ok).2.target = some "old")
    ∧ ((save_file (some "old") "new" SaveOutcome.ok).1 = false
      ↔ SaveOutcome.ok = SaveOutcome.ok)
    ∧ ((save_file (some "old") "new" SaveOutcome.ok).1 = true →
      unlinkOk SaveOutcome.ok = true →
      (save_file (some "old") "new" SaveOutcome.ok).2.temp = none))
    ∧ ((save_file (some "old") "new" (SaveOutcome.failWrite "pa" false)).1
        = true →
      unlinkOk (SaveOutcome.failWrite "pa" false) = true →
      (save_file (some "old") "new"
        (SaveOutcome.failWrite "pa" false)).2.temp = none) :=
  ⟨c7_save_file_atomic (some "old") "new" SaveOutcome.ok,
    (c7_save_file_atomic (some "old") "new"
      (SaveOutcome.failWrite "pa" false)).2.2.2.2⟩

/-- C8, counterexample to the claim as stated: constructing a `DailyState`
against a directory whose state file for today is present but malformed
propagates the parse failure — `DailyState._load` wraps `orjson.loads` and
the key lookups in no try/except, so the constructor raises. -/
theorem c8_counterexample :
    DailyState.load "2026-10-12" (some (Except.error ()))
      = Except.error () := rfl

/-- C8 (amended): `TradePlanStore._load` recovers read failures locally —
against a malformed active-plans file the store starts with zero active
plans (and against a malformed archive file with an empty archive) and does
not raise (`TradePlanStore.load` is total); a `DailyState` constructed
against a malformed state file, by contrast, propagates the parse
failure. -/
theorem c8_load_recovery (activeFile archiveFile : Option (Except Unit PlanDict))
    (today : String) :
    (TradePlanStore.load (some (Except.error ())) archiveFile).plans = []
    ∧ (TradePlanStore.load activeFile (some (Except.error ()))).archived = []
    ∧ (∀ e, DailyState.load today (some (Except.error e)) = Except.error e) :=
  ⟨rfl, rfl, fun _ => rfl⟩

/-- C10: on every accessor of `DailyState`, when the stored date-string
differs from today's date computed fresh at call time, the in-memory state
is first reset (P&L 0, recent orders cleared) before the operation
proceeds, and the prior day's on-disk file is untouched: the two persisting
accessors write only the file named by the new date, and
`has_recent_order` / `get_daily_pnl` take no file-system argument at all
(they never write). -/
theorem c10_rollover (s : DailyState) (fs : DailyState.StateFiles)
    (today : String) (h : s.date ≠ today) (amount now window : Rat)
    (fp : String) :
    DailyState.ensure_today s today
      = { date := today, realized_pnl := 0, recent_orders := [] }
    ∧ (DailyState.record_pnl s fs today amount).2 s.date = fs s.date
    ∧ (DailyState.record_order s fs today now fp).2 s.date = fs s.date
    ∧ (DailyState.record_pnl s fs today amount).1
      = { date := today, realized_pnl := amount, recent_orders := [] }
    ∧ (DailyState.record_order s fs today now fp).1
      = { date := today, realized_pnl := 0, recent_orders := [⟨fp, now⟩] }
    ∧ (DailyState.get_daily_pnl s today).1 = 0
    ∧ (DailyState.get_daily_pnl s today).2
      = { date := today, realized_pnl := 0, recent_orders := [] }
    ∧ (DailyState.has_recent_order s today now fp window).2
      = { date := today, realized_pnl := 0, recent_orders := [] } := by
  have he : DailyState.ensure_today s today
      = { date := today, realized_pnl := 0, recent_orders := [] } := by
    simp [DailyState.ensure_today, h]
  refine ⟨he, ?_, ?_, ?_, ?_, ?_, ?_, ?_⟩
  · simp [DailyState.record_pnl, DailyState.save, he, h]
  · simp [DailyState.record_order, DailyState.save, he, h]
  · simp [DailyState.record_pnl, he]
  · simp [DailyState.record_order, he]
  · simp [DailyState.get_daily_pnl, he]
  · simp [DailyState.get_daily_pnl, he]
  · simp [DailyState.has_recent_order, he]

/-- Witness for C10 at concrete inputs: state dated 2026-10-11 accessed on
2026-10-12 over an empty file system. -/
theorem c10_witness :
    DailyState.ensure_today ⟨"2026-10-11", 7, [⟨"f", 3⟩]⟩ "2026-10-12"
      = { date := "2026-10-12", realized_pnl := 0, recent_orders := [] }
    ∧ (DailyState.record_pnl ⟨"2026-10-11", 7, [⟨"f", 3⟩]⟩ (fun _ => none)
        "2026-10-12" 5).2 "2026-10-11" = (fun _ => none) "2026-10-11"
    ∧ (DailyState.record_order ⟨"2026-10-11", 7, [⟨"f", 3⟩]⟩ (fun _ => none)
        "2026-10-12" 100 "g").2 "2026-10-11" = (fun _ => none) "2026-10-11"
    ∧ (DailyState.record_pnl ⟨"2026-10-11", 7, [⟨"f", 3⟩]⟩ (fun _ => none)
        "2026-10-12" 5).1
      = { date := "2026-10-12", realized_pnl := 5, recent_orders := [] }
    ∧ (DailyState.record_order ⟨"2026-10-11", 7, [⟨"f", 3⟩]⟩ (fun _ => none)
        "2026-10-12" 100 "g").1
      = { date := "2026-10-12", realized_pnl := 0,
          recent_orders := [⟨"g", 100⟩] }
    ∧ (DailyState.get_daily_pnl ⟨"2026-10-11", 7, [⟨"f", 3⟩]⟩
        "2026-10-12").1 = 0
    ∧ (DailyState.get_daily_pnl ⟨"2026-10-11", 7, [⟨"f", 3⟩]⟩
        "2026-10-12").2
      = { date := "2026-10-12", realized_pnl := 0, recent_orders := [] }
    ∧ (DailyState.has_recent_order ⟨"2026-10-11", 7, [⟨"f", 3⟩]⟩
        "2026-10-12" 100 "g" 60).2
      = { date := "2026-10-12", realized_pnl := 0, recent_orders := [] } :=
  c10_rollover ⟨"2026-10-11", 7, [⟨"f", 3⟩]⟩ (fun _ => none) "2026-10-12"
    (by decide) 5 100 60 "g"

/-- After `_ensure_today`, the stored date is always today's date. -/
theorem ensure_today_date (s : DailyState) (today : String) :
    (DailyState.ensure_today s today).date = today := by
  unfold DailyState.ensure_today
  split
  · rfl
  · next h => exact not_not.mp h

/-- `_ensure_today` is the identity on a state already dated today. -/
theorem ensure_today_self (s : DailyState) (today : String)
    (h : s.date = today) : DailyState.ensure_today s today = s := by
  simp [DailyState.ensure_today, h]

/-- The state returned by `has_recent_order` is dated today. -/
theorem has_recent_order_date (s : DailyState) (today : String)
    (now : Rat) (fp : String) (window : Rat) :
    (DailyState.has_recent_order s today now fp window).2.date = today := by
  simp [DailyState.has_recent_order, ensure_today_date]

/-- The first component of `get_daily_pnl` is the P&L of the
rolled-over state. -/
theorem get_daily_pnl_fst (s : DailyState) (today : String) :
    (DailyState.get_daily_pnl s today).1
      = (DailyState.ensure_today s today).realized_pnl := rfl

/-- The state returned by `get_daily_pnl` is the rolled-over state. -/
theorem get_daily_pnl_snd (s : DailyState) (today : String) :
    (DailyState.get_daily_pnl s today).2
      = DailyState.ensure_today s today := rfl

/-- The state returned by `has_recent_order` is the rolled-over state with
its expired entries pruned. -/
theorem has_recent_order_snd (s : DailyState) (today : String)
    (now : Rat) (fp : String) (window : Rat) :
    (DailyState.has_recent_order s today now fp window).2
      = { DailyState.ensure_today s today with
          recent_orders := (DailyState.ensure_today s today).recent_orders.filter
            (fun e => decide (now - window ≤ e.timestamp)) } := rfl

/-- C9, counterexample to the claim as stated: `has_recent_order` does not
leave the `DailyState` unchanged — with one entry older than the window it
prunes that entry from the in-memory list as a side effect. -/
theorem c9_counterexample :
    (DailyState.has_recent_order ⟨"2026-10-12", 0, [⟨"fp", 0⟩]⟩
        "2026-10-12" 100 "x" 60).2
      ≠ ⟨"2026-10-12", 0, [⟨"fp", 0⟩]⟩ := by
  intro h
  have h2 : List.filter (fun e => decide ((100 : Rat) - 60 ≤ e.timestamp))
      [(⟨"fp", 0⟩ : OrderEntry)] = [⟨"fp", 0⟩] :=
    congrArg DailyState.recent_orders h
  rw [List.filter_eq_self] at h2
  have h3 := h2 ⟨"fp", 0⟩ (List.mem_singleton.mpr rfl)
  rw [decide_eq_true_iff] at h3
  norm_num at h3

/-- C9 (amended): the four value inputs of `run_safety_checks` are
immutable embedded values; the two state-store queries (`get_daily_pnl`,
`has_recent_order`) never write to disk (they take and return no
file-system state), and their only in-memory effects are the day-rollover
reset and the pruning of expired fingerprint entries: on a state whose
stored date is current and whose entries are all within the window, both
queries return the state unchanged. Moreover, unconditionally, the two
queries commute: running `get_daily_pnl` after `has_recent_order` returns
the same P&L as running it first, and running `has_recent_order` on the
state left by `get_daily_pnl` gives the identical answer and final state —
so the two state-reading checks may be evaluated in either order with the
same result. -/
theorem c9_state_queries (s : DailyState) (today : String)
    (now window : Rat) (fp : String) :
    (s.date = today → (∀ e ∈ s.recent_orders, now - window ≤ e.timestamp) →
      (DailyState.get_daily_pnl s today).2 = s
      ∧ (DailyState.has_recent_order s today now fp window).2 = s)
    ∧ (DailyState.get_daily_pnl
        ((DailyState.has_recent_order s today now fp window).2) today).1
      = (DailyState.get_daily_pnl s today).1
    ∧ DailyState.has_recent_order
        ((DailyState.get_daily_pnl s today).2) today now fp window
      = DailyState.has_recent_order s today now fp window := by
  refine ⟨fun h1 h2 => ?_, ?_, ?_⟩
  · have he : DailyState.ensure_today s today = s := ensure_today_self s today h1
    have hf : s.recent_orders.filter
        (fun e => decide (now - window ≤ e.timestamp)) = s.recent_orders :=
      List.filter_eq_self.mpr (fun e he' => decide_eq_true (h2 e he'))
    constructor
    · rw [get_daily_pnl_snd, he]
    · rw [has_recent_order_snd, he, hf]
  · have hd : (DailyState.has_recent_order s today now fp window).2.date
        = today := has_recent_order_date s today now fp window
    rw [get_daily_pnl_fst, get_daily_pnl_fst, ensure_today_self _ _ hd,
      has_recent_order_snd]
  · rw [get_daily_pnl_snd]
    unfold DailyState.has_recent_order
    rw [ensure_today_self _ _ (ensure_today_date s today)]

/-- Witness for C9 (amended) at concrete inputs: a state dated today whose
single entry is inside the window is left unchanged by both queries. -/
theorem c9_witness :
    ((DailyState.get_daily_pnl ⟨"2026-10-12", 3, [⟨"fp", 80⟩]⟩
        "2026-10-12").2 = ⟨"2026-10-12", 3, [⟨"fp", 80⟩]⟩)
    ∧ (DailyState.has_recent_order ⟨"2026-10-12", 3, [⟨"fp", 80⟩]⟩
        "2026-10-12" 100 "fp" 60).2 = ⟨"2026-10-12", 3, [⟨"fp", 80⟩]⟩ :=
  (c9_state_queries ⟨"2026-10-12", 3, [⟨"fp", 80⟩]⟩ "2026-10-12"
    100 60 "fp").1 rfl
    (by intro e he; rw [List.mem_singleton] at he; subst he; norm_num)

/-- Looking up the freshly inserted key finds the new value. -/
theorem dget_dinsert_self (d : PlanDict) (k : String) (v : TradePlan) :
    dget (dinsert d k v) k = some v := by
  induction d with
  | nil => simp [dinsert, dget]
  | cons kv rest ih =>
    by_cases h : (kv.1 == k) = true
    · simp [dinsert, dget, h]
    · simp [dinsert, dget, h, ih]

/-- Insertion at one key leaves lookups at other keys unchanged. -/
theorem dget_dinsert_ne (d : PlanDict) (k k' : String) (v : TradePlan)
    (h : k' ≠ k) : dget (dinsert d k v) k' = dget d k' := by
  induction d with
  | nil => simp [dinsert, dget, Ne.symm h]
  | cons kv rest ih =>
    by_cases hh : (kv.1 == k) = true
    · have hk : kv.1 = k := by simpa using hh
      simp [dinsert, dget, hh, hk, Ne.symm h]
    · simp only [dinsert, hh, if_false, Bool.false_eq_true]
      by_cases hk' : (kv.1 == k') = true
      · simp [dget, hk']
      · simp [dget, hk', ih]

/-- An insertion can only lose `none`-ness at no key: lookups that
succeeded keep succeeding. -/
theorem dget_dinsert_isSome (d : PlanDict) (k k' : String) (v : TradePlan)
    (h : dget d k' ≠ none) : dget (dinsert d k v) k' ≠ none := by
  by_cases hk : k' = k
  · subst hk; rw [dget_dinsert_self]; simp
  · rw [dget_dinsert_ne d k k' v hk]; exact h

/-- Membership in the keys of an insertion. -/
theorem mem_dkeys_dinsert (d : PlanDict) (k : String) (v : TradePlan)
    (k' : String) : k' ∈ dkeys (dinsert d k v) ↔ k' = k ∨ k' ∈ dkeys d := by
  induction d with
  | nil => simp [dinsert, dkeys]
  | cons kv rest ih =>
    by_cases hh : (kv.1 == k) = true
    · have hk : kv.1 = k := by simpa using hh
      simp [dinsert, dkeys, hh, hk]
    · simp only [dinsert, hh, if_false, Bool.false_eq_true, dkeys,
        List.map_cons, List.mem_cons] at ih ⊢
      rw [ih]
      tauto

/-- Insertion preserves key-uniqueness. -/
theorem nodup_dinsert (d : PlanDict) (k : String) (v : TradePlan)
    (h : NodupKeys d) : NodupKeys (dinsert d k v) := by
  induction d with
  | nil => simp [dinsert, NodupKeys, dkeys]
  | cons kv rest ih =>
    simp only [NodupKeys, dkeys, List.map_cons, List.nodup_cons] at h
    by_cases hh : (kv.1 == k) = true
    · have hk : kv.1 = k := by simpa using hh
      simp only [dinsert, hh, if_true, NodupKeys, dkeys, List.map_cons,
        List.nodup_cons]
      exact ⟨hk ▸ h.1, h.2⟩
    · have hk : kv.1 ≠ k := by simpa using hh
      simp only [dinsert, hh, if_false, Bool.false_eq_true, NodupKeys, dkeys,
        List.map_cons, List.nodup_cons]
      refine ⟨?_, ih h.2⟩
      intro hmem
      rcases (mem_dkeys_dinsert rest k v kv.1).1 hmem with h1 | h1
      · exact hk h1
      · exact h.1 h1

/-- A failed lookup is absence from the keys. -/
theorem dget_eq_none_iff (d : PlanDict) (k : String) :
    dget d k = none ↔ k ∉ dkeys d := by
  induction d with
  | nil => simp [dget, dkeys]
  | cons kv rest ih =>
    by_cases hh : (kv.1 == k) = true
    · have hk : kv.1 = k := by simpa using hh
      simp [dget, dkeys, hh, hk]
    · have hk : kv.1 ≠ k := by simpa using hh
      simp [dget, dkeys, hh, ih, Ne.symm hk]

/-- `dremove` yields a sublist. -/
theorem dremove_sublist (d : PlanDict) (k : String) :
    List.Sublist (dremove d k) d := by
  induction d with
  | nil => simp [dremove]
  | cons kv rest ih =>
    by_cases hh : (kv.1 == k) = true
    · simp [dremove, hh]
    · simp only [dremove, hh, if_false, Bool.false_eq_true]
      exact List.Sublist.cons₂ kv ih

/-- Removal preserves key-uniqueness. -/
theorem nodup_dremove (d : PlanDict) (k : String) (h : NodupKeys d) :
    NodupKeys (dremove d k) := by
  exact List.Nodup.sublist (List.Sublist.map Prod.fst (dremove_sublist d k)) h

/-- On a key-unique dict, removing a key makes its lookup fail. -/
theorem dget_dremove_self (d : PlanDict) (k : String) (h : NodupKeys d) :
    dget (dremove d k) k = none := by
  induction d with
  | nil => rfl
  | cons kv rest ih =>
    simp only [NodupKeys, dkeys, List.map_cons, List.nodup_cons] at h
    by_cases hh : (kv.1 == k) = true
    · have hk : kv.1 = k := by simpa using hh
      simp only [dremove, hh, if_true]
      rw [dget_eq_none_iff]
      exact hk ▸ h.1
    · simp [dremove, dget, hh, ih h.2]

/-- Removing one key leaves other lookups unchanged. -/
theorem dget_dremove_ne (d : PlanDict) (k k' : String) (h : k' ≠ k) :
    dget (dremove d k) k' = dget d k' := by
  induction d with
  | nil => rfl
  | cons kv rest ih =>
    by_cases hh : (kv.1 == k) = true
    · have hk : kv.1 = k := by simpa using hh
      simp [dremove, dget, hh, hk, Ne.symm h]
    · by_cases hk' : (kv.1 == k') = true
      · simp [dremove, dget, hh, hk']
      · simp [dremove, dget, hh, hk', ih]

/-- Folding insertions over a list preserves key-uniqueness of the
accumulator. -/
theorem nodup_foldl_dinsert (l : List (String × TradePlan))
    (g : String × TradePlan → TradePlan) :
    ∀ acc : PlanDict, NodupKeys acc →
      NodupKeys (l.foldl (fun a kv => dinsert a kv.1 (g kv)) acc) := by
  induction l with
  | nil => intro acc h; exact h
  | cons kv rest ih =>
    intro acc h
    exact ih _ (nodup_dinsert acc kv.1 (g kv) h)

/-- Folding insertions over a list preserves succeeding lookups in the
accumulator. -/
theorem dget_foldl_dinsert_isSome (l : List (String × TradePlan))
    (g : String × TradePlan → TradePlan) :
    ∀ (acc : PlanDict) (k : String), dget acc k ≠ none →
      dget (l.foldl (fun a kv => dinsert a kv.1 (g kv)) acc) k ≠ none := by
  induction l with
  | nil => intro acc k h; exact h
  | cons kv rest ih =>
    intro acc k h
    exact ih _ k (dget_dinsert_isSome acc kv.1 k (g kv) h)

/-- One store call preserves key-uniqueness of both maps and — when any
`create` uses an order id not already archived — disjointness of the two
key sets. -/
theorem stepStore_inv (s : TradePlanStore) (op : StoreOp)
    (h1 : NodupKeys s.plans) (h2 : NodupKeys s.archived)
    (h3 : KeysDisjoint s) (hf : createFresh s op) :
    NodupKeys (stepStore s op).plans ∧ NodupKeys (stepStore s op).archived
    ∧ KeysDisjoint (stepStore s op) := by
  cases op with
  | create id sym act q ot rsn lp sp now =>
    refine ⟨nodup_dinsert _ _ _ h1, h2, ?_⟩
    intro k
    by_cases hk : k = toString id
    · subst hk
      exact Or.inr hf
    · exact (h3 k).imp (fun hL => (dget_dinsert_ne _ _ _ _ hk).trans hL) (fun hR => hR)
  | record_modification id changes rsn now =>
    cases hm : dget s.plans (toString id) with
    | none =>
      simp only [stepStore, TradePlanStore.record_modification, hm]
      exact ⟨h1, h2, h3⟩
    | some plan =>
      simp only [stepStore, TradePlanStore.record_modification, hm]
      refine ⟨nodup_dinsert _ _ _ h1, h2, ?_⟩
      intro k
      by_cases hk : k = toString id
      · subst hk
        rcases h3 (toString id) with hL | hR
        · rw [hm] at hL
          exact absurd hL (by simp)
        · exact Or.inr hR
      · exact (h3 k).imp (fun hL => (dget_dinsert_ne _ _ _ _ hk).trans hL) (fun hR => hR)
  | archive id rsn now =>
    cases hm : dget s.plans (toString id) with
    | none =>
      simp only [stepStore, TradePlanStore.archive, hm]
      exact ⟨h1, h2, h3⟩
    | some plan =>
      simp only [stepStore, TradePlanStore.archive, hm]
      refine ⟨nodup_dremove _ _ h1, nodup_dinsert _ _ _ h2, ?_⟩
      intro k
      by_cases hk : k = toString id
      · subst hk
        exact Or.inl (dget_dremove_self s.plans (toString id) h1)
      · exact (h3 k).imp (fun hL => (dget_dremove_ne _ _ _ hk).trans hL)
          (fun hR => (dget_dinsert_ne _ _ _ _ hk).trans hR)
  | archive_all rsn now =>
    exact ⟨by simp [stepStore, TradePlanStore.archive_all, NodupKeys, dkeys],
      nodup_foldl_dinsert _ _ _ h2, fun k => Or.inl rfl⟩

/-- C6 (amended): for every store state reachable from the empty store by
`create` / `record_modification` / `archive` / `archive_all` calls in
which each `create` uses an order id not already present in the archived
set (broker-assigned ids are fresh), each order_id key maps to at most one
plan across the active and archived sets combined; and, for every
reachable state and any further single call, a key present in the archived
set stays present — an archived plan is never removed from the archive nor
returned to the active set. Without the freshness side condition the
combined at-most-one property fails (see the counterexample): `create`
with a previously archived order id re-enters the active set while the old
plan stays archived. -/
theorem c6_amended (s : TradePlanStore) (h : ReachableFresh s) :
    KeysDisjoint s
    ∧ (∀ (op : StoreOp) (k : String), dget s.archived k ≠ none →
        dget (stepStore s op).archived k ≠ none) := by
  have main : NodupKeys s.plans ∧ NodupKeys s.archived ∧ KeysDisjoint s := by
    induction h with
    | empty =>
      exact ⟨by simp [TradePlanStore.empty, NodupKeys, dkeys],
        by simp [TradePlanStore.empty, NodupKeys, dkeys],
        fun k => Or.inl rfl⟩
    | step s' op h' hf ih =>
      exact stepStore_inv s' op ih.1 ih.2.1 ih.2.2 hf
  refine ⟨main.2.2, ?_⟩
  intro op k hk
  cases op with
  | create id sym act q ot rsn lp sp now => exact hk
  | record_modification id changes rsn now =>
    cases hm : dget s.plans (toString id) with
    | none =>
      simp only [stepStore, TradePlanStore.record_modification, hm]
      exact hk
    | some plan =>
      simp only [stepStore, TradePlanStore.record_modification, hm]
      exact hk
  | archive id rsn now =>
    cases hm : dget s.plans (toString id) with
    | none =>
      simp only [stepStore, TradePlanStore.archive, hm]
      exact hk
    | some plan =>
      simp only [stepStore, TradePlanStore.archive, hm]
      exact dget_dinsert_isSome s.archived (toString id) k _ hk
  | archive_all rsn now =>
    exact dget_foldl_dinsert_isSome s.plans _ s.archived k hk

/-- C6, counterexample to the claim as stated: the call sequence
create(1); archive(1); create(1) — legal on the code, since `create`
never checks the archive — leaves order id 1 with a plan in the active set
AND a plan in the archived set, so the key maps to two plans across the
two sets combined. -/
theorem c6_counterexample :
    ((dget (runStore [StoreOp.create 1 "AAPL" "BUY" 10 "LMT" "entry"
        none none "t1",
      StoreOp.archive 1 "filled" "t2",
      StoreOp.create 1 "AAPL" "BUY" 10 "LMT" "again" none none "t3"]).plans
        "1").isSome = true)
    ∧ ((dget (runStore [StoreOp.create 1 "AAPL" "BUY" 10 "LMT" "entry"
        none none "t1",
      StoreOp.archive 1 "filled" "t2",
      StoreOp.create 1 "AAPL" "BUY" 10 "LMT" "again" none none "t3"]).archived
        "1").isSome = true) := ⟨rfl, rfl⟩

/-- Witness for C6 (amended): the conclusion instantiated at the concrete
fresh trace create(2); archive(2), whose reachability is built from the
`ReachableFresh` constructors with the freshness side condition discharged
by computation. -/
theorem c6_witness :
    KeysDisjoint (runStore [StoreOp.create 2 "MSFT" "BUY" 5 "LMT" "r"
        none none "t1",
      StoreOp.archive 2 "done" "t2"])
    ∧ (∀ (op : StoreOp) (k : String),
        dget (runStore [StoreOp.create 2 "MSFT" "BUY" 5 "LMT" "r"
            none none "t1",
          StoreOp.archive 2 "done" "t2"]).archived k ≠ none →
        dget (stepStore (runStore [StoreOp.create 2 "MSFT" "BUY" 5 "LMT" "r"
            none none "t1",
          StoreOp.archive 2 "done" "t2"]) op).archived k ≠ none) := by
  have h0 : ReachableFresh TradePlanStore.empty := ReachableFresh.empty
  have h1 := ReachableFresh.step TradePlanStore.empty
    (StoreOp.create 2 "MSFT" "BUY" 5 "LMT" "r" none none "t1") h0 rfl
  have h2 := ReachableFresh.step _ (StoreOp.archive 2 "done" "t2") h1 trivial
  exact c6_amended _ h2

end TigerMcp
